import Mathlib

/-!
Verification of the Go image resizer (`src/resizer.go`).

Paths are modelled as lists of segments (`List String`), Go `int` as
unbounded `Int` with Go's truncating division (`Int.tdiv`), and the Go
conversion `uint(v)` as reduction modulo `2^64` followed by `Int.toNat`
(two's-complement reinterpretation of an `int64` value as a `uint64`).
-/

namespace Resizer

/-- Go `uint64` modulus. -/
def UINT_MOD : Int := 2 ^ 64

/-- Go `int64` upper bound: a Go `int` value `v` satisfies `-2^63 ≤ v < 2^63`. -/
def INT_MAX : Int := 2 ^ 63

/-- Go conversion `uint(v)` of a (signed, two's-complement) integer value:
reinterpret modulo `2^64` as a non-negative number. -/
def goUint (v : Int) : Nat := (v % UINT_MOD).toNat

/-- Function `GetNewWidth` from `resizer.go`:
`if sc < 0 { nw = uint(-w / sc) } else { nw = uint(w + w/sc) }`.
Go `/` truncates toward zero, hence `Int.tdiv`. -/
def GetNewWidth (w sc : Int) : Nat :=
  if sc < 0 then goUint ((-w).tdiv sc) else goUint (w + w.tdiv sc)

/-- Function `GetNewHeight` from `resizer.go`: same body as `GetNewWidth` with `h` for `w`. -/
def GetNewHeight (h sc : Int) : Nat :=
  if sc < 0 then goUint ((-h).tdiv sc) else goUint (h + h.tdiv sc)

/-- Checked variant of the dimension calculation: Go panics with a runtime
division-by-zero error when the divisor of the branch actually taken is zero.
The `sc < 0` branch divides by `sc` (non-zero there); the `else` branch also
divides by `sc`, which panics exactly when `sc = 0`. -/
def GetNewWidthChecked (w sc : Int) : Option Nat :=
  if sc < 0 then some (goUint ((-w).tdiv sc))
  else if sc = 0 then none
  else some (goUint (w + w.tdiv sc))

/-- Checked variant of `GetNewHeight`; same branch structure. -/
def GetNewHeightChecked (h sc : Int) : Option Nat :=
  if sc < 0 then some (goUint ((-h).tdiv sc))
  else if sc = 0 then none
  else some (goUint (h + h.tdiv sc))

/- ### Arithmetic helper lemmas -/

lemma tdiv_nonneg_of_nonneg {a b : Int} (ha : 0 ≤ a) (hb : 0 ≤ b) :
    0 ≤ a.tdiv b := Int.tdiv_nonneg ha hb

lemma tdiv_le_self_of_nonneg {a b : Int} (ha : 0 ≤ a) (hb : 0 ≤ b) :
    a.tdiv b ≤ a := by
  rw [Int.tdiv_eq_ediv ha hb]
  exact Int.ediv_le_self b ha

/-- For a non-negative dividend and negative divisor, Go's `-w / sc`
equals `w / (-sc)` (both truncating). -/
lemma neg_tdiv_neg (w sc : Int) : (-w).tdiv sc = w.tdiv (-sc) := by
  rw [Int.neg_tdiv, Int.tdiv_neg]

/-- The conversion `goUint` is the identity on values in `[0, 2^64)`. -/
lemma goUint_eq_toNat {v : Int} (h0 : 0 ≤ v) (h1 : v < UINT_MOD) :
    goUint v = v.toNat := by
  unfold goUint
  rw [Int.emod_eq_of_lt h0 h1]

lemma int_max_lt_uint_mod : INT_MAX < UINT_MOD := by decide

/-- Value of `GetNewWidth` on the downscale branch, for a dimension in the
valid `int64` range. -/
lemma GetNewWidth_eq_neg {x sc : Int} (hx : 0 ≤ x) (hx2 : x < INT_MAX)
    (h : sc < 0) : (GetNewWidth x sc : Int) = x.tdiv (-sc) := by
  have hdvd0 : 0 ≤ x.tdiv (-sc) := tdiv_nonneg_of_nonneg hx (by omega)
  have hdvdle : x.tdiv (-sc) ≤ x := tdiv_le_self_of_nonneg hx (by omega)
  have hlt : x.tdiv (-sc) < UINT_MOD := by
    have := int_max_lt_uint_mod
    omega
  unfold GetNewWidth
  rw [if_pos h, neg_tdiv_neg, goUint_eq_toNat hdvd0 hlt,
    Int.toNat_of_nonneg hdvd0]

/-- Value of `GetNewWidth` on the upscale branch, for a dimension in the
valid `int64` range. -/
lemma GetNewWidth_eq_pos {x sc : Int} (hx : 0 ≤ x) (hx2 : x < INT_MAX)
    (h : 0 < sc) : (GetNewWidth x sc : Int) = x + x.tdiv sc := by
  have hq0 : 0 ≤ x.tdiv sc := tdiv_nonneg_of_nonneg hx (le_of_lt h)
  have hqle : x.tdiv sc ≤ x := tdiv_le_self_of_nonneg hx (le_of_lt h)
  have h0 : 0 ≤ x + x.tdiv sc := by omega
  have hlt : x + x.tdiv sc < UINT_MOD := by
    unfold INT_MAX at hx2
    unfold UINT_MOD
    omega
  unfold GetNewWidth
  rw [if_neg (by omega), goUint_eq_toNat h0 hlt, Int.toNat_of_nonneg h0]

/-- C1 — For every non-negative original dimension (within the `int64` range)
and every non-zero scale, `GetNewWidth` computes the spec's reference formula:
`x / (-sc)` (truncating) for `sc < 0` and `x + x / sc` (truncating) for
`sc > 0`; and `GetNewWidth` agrees with `GetNewHeight` everywhere. -/
theorem C1_scale_formula (x sc : Int) (hx : 0 ≤ x) (hx2 : x < INT_MAX)
    (hsc : sc ≠ 0) :
    (sc < 0 → (GetNewWidth x sc : Int) = x.tdiv (-sc)) ∧
    (0 < sc → (GetNewWidth x sc : Int) = x + x.tdiv sc) ∧
    GetNewWidth x sc = GetNewHeight x sc := by
  refine ⟨fun hneg => GetNewWidth_eq_neg hx hx2 hneg,
    fun hpos => GetNewWidth_eq_pos hx hx2 hpos, by rfl⟩

/-- Witness for C1 at `x = 800`, `sc = -2` (and implicitly `sc = 2` via the
conjunct shape): concrete check that the hypotheses are satisfiable and the
formula evaluates. -/
theorem C1_scale_formula_witness :
    (0 : Int) ≤ 800 ∧ (800 : Int) < INT_MAX ∧ (-2 : Int) ≠ 0 ∧
    ((-2 : Int) < 0 → (GetNewWidth 800 (-2) : Int) = (800 : Int).tdiv 2) := by
  refine ⟨by decide, by decide, by decide, ?_⟩
  intro h
  have := (C1_scale_formula 800 (-2) (by decide) (by decide) (by decide)).1 h
  simpa using this

/-- C6 — Under the precondition `sc ≠ 0` the dimension calculation is total:
the dividing branch taken is always reached with a non-zero divisor, so the
checked variants return a value (equal to the unchecked functions); they
fail exactly when `sc = 0`. -/
theorem C6_no_division_by_zero (w sc : Int) (hsc : sc ≠ 0) :
    GetNewWidthChecked w sc = some (GetNewWidth w sc) ∧
    GetNewHeightChecked w sc = some (GetNewHeight w sc) ∧
    GetNewWidthChecked w 0 = none ∧ GetNewHeightChecked w 0 = none := by
  unfold GetNewWidthChecked GetNewHeightChecked GetNewWidth GetNewHeight
  rcases lt_or_gt_of_ne hsc with h | h
  · simp [h]
  · have h1 : ¬ sc < 0 := by omega
    simp [h1, hsc]

/-- Witness for C6 at `w = 100`, `sc = 3`. -/
theorem C6_no_division_by_zero_witness :
    (3 : Int) ≠ 0 ∧ GetNewWidthChecked 100 3 = some (GetNewWidth 100 3) :=
  ⟨by decide, (C6_no_division_by_zero 100 3 (by decide)).1⟩

/-- C7 — For every non-negative dimension `d` (in the `int64` range):
upscaling never shrinks (`sc > 0 → d ≤ new`) and downscaling never grows
(`sc < 0 → new ≤ d`). -/
theorem C7_scale_direction (d sc : Int) (hd : 0 ≤ d) (hd2 : d < INT_MAX) :
    (0 < sc → d ≤ (GetNewWidth d sc : Int)) ∧
    (sc < 0 → (GetNewWidth d sc : Int) ≤ d) := by
  constructor
  · intro hpos
    rw [GetNewWidth_eq_pos hd hd2 hpos]
    have := tdiv_nonneg_of_nonneg hd (le_of_lt hpos)
    omega
  · intro hneg
    rw [GetNewWidth_eq_neg hd hd2 hneg]
    exact tdiv_le_self_of_nonneg hd (by omega)

/-- Witness for C7 at `d = 600`, `sc = 2` and `sc = -2`. -/
theorem C7_scale_direction_witness :
    (0 : Int) ≤ 600 ∧ (600 : Int) < INT_MAX ∧
    (600 ≤ (GetNewWidth 600 2 : Int) ∧ (GetNewWidth 600 (-2) : Int) ≤ 600) :=
  ⟨by decide, by decide,
    (C7_scale_direction 600 2 (by decide) (by decide)).1 (by decide),
    (C7_scale_direction 600 (-2) (by decide) (by decide)).2 (by decide)⟩

/- ### Command line parsing -/

/-- A parsed command line: for each registered flag, `none` when the flag is
absent (the flag package then uses the registered default) and `some v` when
the user passed value `v`. -/
structure CmdLine where
  r : Option Bool
  d : Option String
  sc : Option Int
  p : Option String

/-- Function `ParseCommandLine` from `resizer.go`. Registration order matters: the
default of `-p` is written as `*imgPath` in the source, but that pointer is
dereferenced at registration time — before `flag.Parse` runs — so the
default of `-p` is the registered default of `-d`, namely `""`, not the
parsed `-d` value. Returns `(recursively, imgPath, scaling, pathToSave)`. -/
def ParseCommandLine (c : CmdLine) : Bool × String × Int × String :=
  let imgPathDefault : String := ""
  let pDefault : String := imgPathDefault
  (c.r.getD false, c.d.getD imgPathDefault, c.sc.getD 1, c.p.getD pDefault)

/-- C10 — The CLI default scale is 1, and scale 1 is not the identity:
`newDimension(d, 1) = 2 * d` for every non-negative `d`, so omitting `-sc`
doubles both dimensions. -/
theorem C10_default_scale_doubles (c : CmdLine) (d : Int) (hc : c.sc = none)
    (hd : 0 ≤ d) (hd2 : d < INT_MAX) :
    (ParseCommandLine c).2.2.1 = 1 ∧
    (GetNewWidth d 1 : Int) = 2 * d ∧ (GetNewHeight d 1 : Int) = 2 * d := by
  have hw : (GetNewWidth d 1 : Int) = 2 * d := by
    rw [GetNewWidth_eq_pos hd hd2 (by decide)]
    simp [Int.tdiv_one]
    ring
  exact ⟨by simp [ParseCommandLine, hc], hw,
    by rw [show GetNewHeight = GetNewWidth from rfl]; exact hw⟩

/-- Witness for C10 with no `-sc` flag and `d = 7`. -/
theorem C10_default_scale_doubles_witness :
    (CmdLine.mk none none none none).sc = none ∧ (0 : Int) ≤ 7 ∧
    (7 : Int) < INT_MAX ∧
    (ParseCommandLine (CmdLine.mk none none none none)).2.2.1 = 1 ∧
    (GetNewWidth 7 1 : Int) = 2 * 7 := by
  have h := C10_default_scale_doubles (CmdLine.mk none none none none) 7
    rfl (by decide) (by decide)
  exact ⟨rfl, by decide, by decide, h.1, h.2.1⟩

/- ### Directory traversal -/

/-- Characters of `filepath.Ext` applied to a single path segment: the suffix
starting at the last `.`, or empty when the segment has no `.`. -/
def extChars : List Char → List Char
  | [] => []
  | c :: cs =>
    if cs.contains '.' then extChars cs
    else if c = '.' then c :: cs
    else []

/-- Go `filepath.Ext` on a path's final segment (segments contain no separator,
so the extension of the joined path is the extension of the segment). -/
def extOf (s : String) : String := String.mk (extChars s.toList)

/-- Function `StringInSlice` from `resizer.go`: linear scan for an equal string. -/
def StringInSlice (s : String) : List String → Bool
  | [] => false
  | b :: rest => if b = s then true else StringInSlice s rest

/-- The allowed image extensions, as listed in `GetImageFiles`. -/
def providedExt : List String := [".jpg", ".jpeg", ".png"]

/-- A directory entry as reported by `ioutil.ReadDir`: a regular file or a
subdirectory with its own entries. -/
inductive FsEntry where
  | file (name : String)
  | dir (name : String) (children : List FsEntry)

/-- Function `GetImageFiles` from `resizer.go`, with the filesystem passed in as the
entry list of `dirname`. The Go function appends matches to a shared buffer;
this returns the list of appended paths in append order. In recursive mode a
directory entry is recursed into; otherwise it is skipped; a non-directory
entry is kept iff its extension is in `providedExt`. -/
def GetImageFiles : Bool → List String → List FsEntry → List (List String)
  | _, _, [] => []
  | recurs, dirname, FsEntry.file nm :: rest =>
    (if StringInSlice (extOf nm) providedExt then [dirname ++ [nm]] else [])
      ++ GetImageFiles recurs dirname rest
  | recurs, dirname, FsEntry.dir nm ch :: rest =>
    (if recurs then GetImageFiles recurs (dirname ++ [nm]) ch else [])
      ++ GetImageFiles recurs dirname rest

/-- Final path segment (`filepath.Split`'s file part / base name). -/
def baseName (p : List String) : String := p.getLastD ""

/-- A path is an image path when its base name's extension is allowed. -/
def isImagePath (p : List String) : Bool :=
  StringInSlice (extOf (baseName p)) providedExt

/-- Modelled from the spec: the direct (non-directory) children of the root
whose extension is allowed — the spec's description of non-recursive
collection. -/
def specDirectFiles (dirname : List String) (entries : List FsEntry) :
    List (List String) :=
  entries.filterMap fun e =>
    match e with
    | FsEntry.file nm =>
      if StringInSlice (extOf nm) providedExt then some (dirname ++ [nm])
      else none
    | FsEntry.dir _ _ => none

/-- Modelled from the spec: every non-directory path at every depth of the
tree, in traversal order. -/
def specAllFiles : List String → List FsEntry → List (List String)
  | _, [] => []
  | dirname, FsEntry.file nm :: rest =>
    (dirname ++ [nm]) :: specAllFiles dirname rest
  | dirname, FsEntry.dir nm ch :: rest =>
    specAllFiles (dirname ++ [nm]) ch ++ specAllFiles dirname rest

lemma isImagePath_concat (dirname : List String) (nm : String) :
    isImagePath (dirname ++ [nm]) = StringInSlice (extOf nm) providedExt := by
  unfold isImagePath baseName
  rw [List.getLastD_concat]

/-- Non-recursive collection returns exactly the matching direct file
children. -/
lemma getImageFiles_false_eq (dirname : List String) (entries : List FsEntry) :
    GetImageFiles false dirname entries = specDirectFiles dirname entries := by
  induction entries with
  | nil => simp [GetImageFiles, specDirectFiles]
  | cons e rest ih =>
    cases e with
    | file nm =>
      simp only [GetImageFiles, specDirectFiles, List.filterMap_cons]
      rw [show specDirectFiles dirname rest =
        List.filterMap _ rest from rfl] at ih
      by_cases h : StringInSlice (extOf nm) providedExt <;> simp [h, ih]
    | dir nm ch =>
      simp only [GetImageFiles, specDirectFiles, List.filterMap_cons]
      rw [show specDirectFiles dirname rest =
        List.filterMap _ rest from rfl] at ih
      simp [ih]

/-- Recursive collection returns exactly the matching files at every
depth. -/
lemma getImageFiles_true_eq (dirname : List String) (entries : List FsEntry) :
    GetImageFiles true dirname entries =
      (specAllFiles dirname entries).filter isImagePath := by
  match entries with
  | [] => simp [GetImageFiles, specAllFiles]
  | FsEntry.file nm :: rest =>
    have ih := getImageFiles_true_eq dirname rest
    simp only [GetImageFiles, specAllFiles, List.filter_cons,
      isImagePath_concat, ih]
    by_cases h : StringInSlice (extOf nm) providedExt <;> simp [h]
  | FsEntry.dir nm ch :: rest =>
    have ih1 := getImageFiles_true_eq (dirname ++ [nm]) ch
    have ih2 := getImageFiles_true_eq dirname rest
    simp only [GetImageFiles, specAllFiles, List.filter_append, ih1, ih2,
      if_pos]
termination_by sizeOf entries

/-- Every collected path is an image path, in both modes. -/
lemma getImageFiles_all_image (r : Bool) (dirname : List String)
    (entries : List FsEntry) (p : List String)
    (hp : p ∈ GetImageFiles r dirname entries) : isImagePath p = true := by
  cases r with
  | false =>
    rw [getImageFiles_false_eq] at hp
    unfold specDirectFiles at hp
    obtain ⟨e, _, he⟩ := List.mem_filterMap.mp hp
    cases e with
    | file nm =>
      by_cases h : StringInSlice (extOf nm) providedExt
      · simp only [h, if_pos] at he
        cases he
        rw [isImagePath_concat]
        exact h
      · simp [h] at he
    | dir nm ch => simp at he
  | true =>
    rw [getImageFiles_true_eq] at hp
    exact (List.mem_filter.mp hp).2

/-- C3 — `GetImageFiles` with `recursive=false` returns exactly the direct
non-directory children with an allowed extension (never descending into
subdirectories); with `recursive=true` it returns exactly the allowed-extension
files at every depth; non-matching extensions are excluded in both modes. -/
theorem C3_collector_characterization (dirname : List String)
    (entries : List FsEntry) :
    GetImageFiles false dirname entries = specDirectFiles dirname entries ∧
    GetImageFiles true dirname entries =
      (specAllFiles dirname entries).filter isImagePath ∧
    (∀ r : Bool, (GetImageFiles r dirname entries).all isImagePath = true) := by
  refine ⟨getImageFiles_false_eq dirname entries,
    getImageFiles_true_eq dirname entries, fun r => ?_⟩
  rw [List.all_eq_true]
  intro p hp
  exact getImageFiles_all_image r dirname entries p hp

/- ### Resize stage -/

/-- Record `ResizedImage` from `resizer.go`; the pixel buffer is abstracted to an
opaque handle (`Data : Nat`). -/
structure ResizedImage where
  Filename : List String
  Ext : String
  Width : Nat
  Height : Nat
  Data : Nat
deriving DecidableEq

/-- External collaborators of the resize stage: image bounds reported by the
decoder (`img.Bounds().Max.X/Y`), the decoded pixel buffer, and the
`resize.Resize` resampler (width, height, buffer ↦ buffer). -/
structure ImgEnv where
  boundsX : List String → Int
  boundsY : List String → Int
  decode : List String → Nat
  resample : Nat → Nat → Nat → Nat

/-- Go zero value of `ResizedImage` (`var resizedImg ResizedImage`). -/
def zeroResized : ResizedImage := ⟨[], "", 0, 0, 0⟩

/-- One iteration of the `Resize` loop body: dispatch on the extension of the
full path; on `.jpeg`/`.jpg` or `.png` decode and build a fresh record; on any
other extension the loop variable keeps its previous value — and is still
sent. -/
def resizeStep (env : ImgEnv) (scale : Int) (prev : ResizedImage)
    (filename : List String) : ResizedImage :=
  let ext := extOf (baseName filename)
  if ext = ".jpeg" ∨ ext = ".jpg" then
    let width := GetNewWidth (env.boundsX filename) scale
    let height := GetNewHeight (env.boundsY filename) scale
    ⟨filename, ext, width, height,
      env.resample width height (env.decode filename)⟩
  else if ext = ".png" then
    let width := GetNewWidth (env.boundsX filename) scale
    let height := GetNewHeight (env.boundsY filename) scale
    ⟨filename, ext, width, height,
      env.resample width height (env.decode filename)⟩
  else prev

/-- The records sent on the channel by `Resize`, in send order, starting from
loop variable value `prev`. One send per input path. -/
def ResizeAux (env : ImgEnv) (scale : Int) (prev : ResizedImage) :
    List (List String) → List ResizedImage
  | [] => []
  | f :: rest =>
    let r := resizeStep env scale prev f
    r :: ResizeAux env scale r rest

/-- Function `Resize` from `resizer.go`: the full channel content produced for the
given path list (the loop variable starts at the Go zero value). -/
def Resize (files : List (List String)) (scale : Int) (env : ImgEnv) :
    List ResizedImage :=
  ResizeAux env scale zeroResized files

/- ### Save stage -/

/-- Output file name derived in `HandleResized`:
`fmt.Sprint(width) + "x" + fmt.Sprint(height) + "_" + filename`. -/
def outName (r : ResizedImage) : String :=
  toString r.Width ++ "x" ++ toString r.Height ++ "_" ++ baseName r.Filename

/-- Path passed to `os.Create` for one record: when `savedir` is empty the
source filename itself, otherwise `filepath.Join(savedir, newFilename)`. -/
def writePath (savedir : List String) (r : ResizedImage) : List String :=
  if savedir = [] then r.Filename else savedir ++ [outName r]

/-- Go `os.Mkdir`: creates exactly one directory level; succeeds only when the
path is non-empty, its parent exists (the empty parent is the working
directory, which always exists) and the path does not exist yet. The Go code
discards the returned error, so failure leaves the state unchanged. -/
def Mkdir (dirs : List (List String)) (p : List String) :
    List (List String) :=
  if p ≠ [] ∧ (p.dropLast = [] ∨ p.dropLast ∈ dirs) ∧ p ∉ dirs then p :: dirs
  else dirs

/-- Function `HandleResized` from `resizer.go`: first the directory step
(`os.Stat` + `os.Mkdir` when the destination does not exist), then `n`
receive/`os.Create` iterations. Returns the directory set after the mkdir
step (which precedes every write) and the write-attempt paths in order. -/
def HandleResized (savedir : List String) (n : Nat)
    (channel : List ResizedImage) (dirs : List (List String)) :
    List (List String) × List (List String) :=
  let dirs2 := if savedir ∈ dirs then dirs else Mkdir dirs savedir
  (dirs2, (channel.take n).map (writePath savedir))

/- ### Pipeline lemmas -/

lemma resizeAux_length (env : ImgEnv) (sc : Int) :
    ∀ (fs : List (List String)) (prev : ResizedImage),
      (ResizeAux env sc prev fs).length = fs.length := by
  intro fs
  induction fs with
  | nil => intro prev; rfl
  | cons f rest ih =>
    intro prev
    simp only [ResizeAux, List.length_cons]
    rw [ih]

lemma stringInSlice_provided {e : String}
    (h : StringInSlice e providedExt = true) :
    e = ".jpg" ∨ e = ".jpeg" ∨ e = ".png" := by
  simp only [providedExt, StringInSlice] at h
  split_ifs at h with h1 h2 h3
  · exact Or.inl h1.symm
  · exact Or.inr (Or.inl h2.symm)
  · exact Or.inr (Or.inr h3.symm)

/-- A path whose extension is allowed always takes a real decode branch, so
the emitted record carries that path. -/
lemma resizeStep_filename (env : ImgEnv) (sc : Int) (prev : ResizedImage)
    (f : List String) (h : isImagePath f = true) :
    (resizeStep env sc prev f).Filename = f := by
  unfold isImagePath at h
  rcases stringInSlice_provided h with h1 | h1 | h1 <;>
    simp [resizeStep, h1]

lemma resizeAux_map_filename (env : ImgEnv) (sc : Int) :
    ∀ (fs : List (List String)) (prev : ResizedImage),
      (∀ f ∈ fs, isImagePath f = true) →
      (ResizeAux env sc prev fs).map (fun x => x.Filename) = fs := by
  intro fs
  induction fs with
  | nil => intro prev _; rfl
  | cons f rest ih =>
    intro prev hall
    simp only [ResizeAux, List.map_cons]
    rw [resizeStep_filename env sc prev f (hall f (List.mem_cons_self f rest)),
      ih _ fun g hg => hall g (List.mem_cons_of_mem f hg)]

/-- C2 — For an error-free run over the collected paths: `Resize` emits
exactly one record per collected path (carrying that path — none dropped,
none duplicated), and the save stage makes exactly as many write attempts as
there are collected paths. -/
theorem C2_pipeline_conservation (r : Bool) (dirname : List String)
    (entries : List FsEntry) (sc : Int) (env : ImgEnv)
    (savedir : List String) (dirs : List (List String)) :
    (Resize (GetImageFiles r dirname entries) sc env).length =
      (GetImageFiles r dirname entries).length ∧
    (Resize (GetImageFiles r dirname entries) sc env).map
        (fun x => x.Filename) = GetImageFiles r dirname entries ∧
    (HandleResized savedir (GetImageFiles r dirname entries).length
        (Resize (GetImageFiles r dirname entries) sc env) dirs).2.length =
      (GetImageFiles r dirname entries).length := by
  refine ⟨resizeAux_length env sc _ _, ?_, ?_⟩
  · exact resizeAux_map_filename env sc _ _
      (fun f hf => getImageFiles_all_image r dirname entries f hf)
  · simp only [HandleResized, Resize, List.length_map, List.length_take,
      resizeAux_length]
    exact Nat.min_self _

/- ### Save-stage naming (C4) -/

lemma outName_length_gt (r : ResizedImage) :
    (baseName r.Filename).length < (outName r).length := by
  unfold outName
  simp only [String.length_append]
  have hx : ("x" : String).length = 1 := rfl
  have hu : ("_" : String).length = 1 := rfl
  omega

/-- Counterexample to C4 as stated: with the empty destination directory
(the configuration produced when `-p` is omitted) the save stage writes to
the source path itself, not to `<dest>/<WxH_basename>`. -/
theorem C4_counterexample :
    writePath [] ⟨["photo.jpg"], ".jpg", 1200, 900, 0⟩ =
      (⟨["photo.jpg"], ".jpg", 1200, 900, 0⟩ : ResizedImage).Filename ∧
    writePath [] ⟨["photo.jpg"], ".jpg", 1200, 900, 0⟩ ≠
      [] ++ [outName ⟨["photo.jpg"], ".jpg", 1200, 900, 0⟩] := by
  constructor
  · rfl
  · decide

/-- C4 (amended) — For every record consumed with a non-empty destination
directory, the file written is `<dest>/<newWidth>x<newHeight>_<basename>`,
and this path is never the source path itself. -/
theorem C4_output_under_destination (savedir : List String)
    (r : ResizedImage) (h : savedir ≠ []) :
    writePath savedir r = savedir ++ [outName r] ∧
    writePath savedir r ≠ r.Filename := by
  constructor
  · simp [writePath, h]
  · intro heq
    rw [writePath, if_neg h] at heq
    have hlast : r.Filename.getLastD "" = outName r := by
      rw [← heq, List.getLastD_concat]
    have hlen := outName_length_gt r
    rw [baseName, hlast] at hlen
    exact lt_irrefl _ hlen

/-- Witness for the amended C4 at destination `["out"]`. -/
theorem C4_output_under_destination_witness :
    (["out"] : List String) ≠ [] ∧
    (writePath ["out"] ⟨["photo.jpg"], ".jpg", 1200, 900, 0⟩ =
      ["out"] ++ [outName ⟨["photo.jpg"], ".jpg", 1200, 900, 0⟩] ∧
     writePath ["out"] ⟨["photo.jpg"], ".jpg", 1200, 900, 0⟩ ≠
      (⟨["photo.jpg"], ".jpg", 1200, 900, 0⟩ : ResizedImage).Filename) :=
  ⟨by decide,
    C4_output_under_destination ["out"] ⟨["photo.jpg"], ".jpg", 1200, 900, 0⟩
      (by decide)⟩

/- ### Destination-directory creation (C9) -/

/-- Counterexample to C9 as stated: with destination `a/b` and no existing
directories, neither `a/b` nor the intermediate `a` is created by the save
stage's directory step (`os.Mkdir` creates a single level and its error is
discarded). -/
theorem C9_counterexample :
    ¬ (["a", "b"] ∈ (HandleResized ["a", "b"] 1 [] []).1) ∧
    ¬ (["a"] ∈ (HandleResized ["a", "b"] 1 [] []).1) := by
  decide

/-- C9 (amended) — If the destination directory does not exist when the save
stage starts, a single-level mkdir is attempted before any write: the
directory is created provided its parent already exists (or it is a
single-segment path); missing intermediate segments are not created. -/
theorem C9_mkdir_single_level (savedir : List String) (n : Nat)
    (channel : List ResizedImage) (dirs : List (List String))
    (h1 : savedir ≠ [])
    (h2 : savedir.dropLast = [] ∨ savedir.dropLast ∈ dirs) :
    savedir ∈ (HandleResized savedir n channel dirs).1 := by
  unfold HandleResized
  by_cases hmem : savedir ∈ dirs
  · simp [hmem]
  · simp only [hmem, if_neg, if_false]
    unfold Mkdir
    rw [if_pos ⟨h1, h2, hmem⟩]
    exact List.mem_cons_self _ _

/-- Witness for the amended C9 at destination `["out"]` with no existing
directories. -/
theorem C9_mkdir_single_level_witness :
    (["out"] : List String) ≠ [] ∧
    ((["out"] : List String).dropLast = [] ∨
      (["out"] : List String).dropLast ∈ ([] : List (List String))) ∧
    ["out"] ∈ (HandleResized ["out"] 0 [] []).1 :=
  ⟨by decide, Or.inl rfl,
    C9_mkdir_single_level ["out"] 0 [] [] (by decide) (Or.inl rfl)⟩

/- ### The main entry point -/

/-- Terminal outcome of `main`: one of the two fatal configuration errors,
or a completed run with the collected files, the write-attempt paths and the
reported count. -/
inductive MainResult where
  | errMissingPath
  | errZeroScale
  | completed (files : List (List String)) (writes : List (List String))
      (count : Nat)
deriving DecidableEq

/-- File-I/O events of a run, in order. -/
inductive IOEv where
  | readDir (p : List String)
  | openFile (p : List String)
  | mkdirEv (p : List String)
  | createFile (p : List String)
deriving DecidableEq

/-- Directories read by `GetImageFiles` while walking the entries of
`dirname` (one `ioutil.ReadDir` per visited directory), root excluded. -/
def readDirsAux : Bool → List String → List FsEntry → List (List String)
  | _, _, [] => []
  | recurs, dirname, FsEntry.file _ :: rest => readDirsAux recurs dirname rest
  | recurs, dirname, FsEntry.dir nm ch :: rest =>
    (if recurs then
      (dirname ++ [nm]) :: readDirsAux recurs (dirname ++ [nm]) ch
     else [])
      ++ readDirsAux recurs dirname rest

/-- All directories read by a `GetImageFiles` call on `dirname`. -/
def readDirs (recurs : Bool) (dirname : List String)
    (entries : List FsEntry) : List (List String) :=
  dirname :: readDirsAux recurs dirname entries

/-- Function `main` from `resizer.go`: parse flags, reject an empty `-d`, reject a
zero scale, then collect, resize and save. Returns the terminal outcome and
the ordered file-I/O event trace (directory reads, file opens, the mkdir
attempt when the destination is absent, file creates). -/
def goMain (c : CmdLine) (root : List FsEntry) (env : ImgEnv)
    (dirs : List (List String)) : MainResult × List IOEv :=
  let parsed := ParseCommandLine c
  let recFlag := parsed.1
  let pathFlag := parsed.2.1
  let scaleFlag := parsed.2.2.1
  let savePath := parsed.2.2.2
  if pathFlag = "" then (MainResult.errMissingPath, [])
  else if scaleFlag = 0 then (MainResult.errZeroScale, [])
  else
    let files := GetImageFiles recFlag [pathFlag] root
    let recs := Resize files scaleFlag env
    let savedir := if savePath = "" then [] else [savePath]
    let hr := HandleResized savedir files.length recs dirs
    (MainResult.completed files hr.2 files.length,
      (readDirs recFlag [pathFlag] root).map IOEv.readDir
        ++ files.map IOEv.openFile
        ++ (if savedir ∈ dirs then [] else [IOEv.mkdirEv savedir])
        ++ hr.2.map IOEv.createFile)

/-- C5 — Divergence at the concrete input `-d imgs` with `-p` absent: the
source says the `-p` default is `*imgPath`, but that pointer is dereferenced
at flag-registration time, before `flag.Parse`, so the destination is `""`
and not the `-d` value `"imgs"` (contradicting the flag's own usage text
"Default value -d flag value."). -/
theorem C5_default_destination_empty :
    (ParseCommandLine ⟨none, some "imgs", none, none⟩).2.2.2 = "" ∧
    (ParseCommandLine ⟨none, some "imgs", none, none⟩).2.1 = "imgs" ∧
    ("" : String) ≠ "imgs" := by
  refine ⟨rfl, rfl, by decide⟩

/-- C8 — With the `-d` flag present and non-empty and a zero scale, `main`
terminates with the zero-scale configuration error and an empty I/O trace:
no directory is read, no file is opened or created, and no pipeline work
begins. -/
theorem C8_zero_scale_no_io (c : CmdLine) (root : List FsEntry)
    (env : ImgEnv) (dirs : List (List String)) (h0 : c.sc = some 0)
    (h1 : (ParseCommandLine c).2.1 ≠ "") :
    goMain c root env dirs = (MainResult.errZeroScale, []) := by
  have hs : (ParseCommandLine c).2.2.1 = 0 := by
    simp [ParseCommandLine, h0]
  unfold goMain
  simp [h1, hs]

/-- Witness for C8: `-d imgs -sc 0` on an arbitrary tree. -/
theorem C8_zero_scale_no_io_witness :
    (CmdLine.mk none (some "imgs") (some 0) none).sc = some 0 ∧
    (ParseCommandLine (CmdLine.mk none (some "imgs") (some 0) none)).2.1 ≠ "" ∧
    goMain (CmdLine.mk none (some "imgs") (some 0) none)
      [FsEntry.file "photo.jpg"]
      ⟨fun _ => 800, fun _ => 600, fun _ => 0, fun _ _ _ => 0⟩ [] =
      (MainResult.errZeroScale, []) :=
  ⟨rfl, by decide,
    C8_zero_scale_no_io (CmdLine.mk none (some "imgs") (some 0) none)
      [FsEntry.file "photo.jpg"]
      ⟨fun _ => 800, fun _ => 600, fun _ => 0, fun _ _ _ => 0⟩ []
      rfl (by decide)⟩

end Resizer
